import Mathlib

/-!
Verification of the dn42 autopeer daemon (Rust) against its natural-language
specification.  The Rust sources under `src/` are shallowly embedded as Lean
definitions: pure functions become Lean functions, the HTTP handlers become
functions from explicit registry state and effect oracles to a response, a new
registry state and a trace of performed effects.  Machine integers (`u64`,
`u16`) are modelled as `Nat`; none of the modelled arithmetic can overflow
(the largest value produced is `port_prefix_number * 10000 + 9999` with
`port_prefix_number ≤ 65535`, far below `2 ^ 64`).

Third-party library behaviour that the repository merely calls
(`url::Url::parse`, `std::net::Ipv6Addr::from_str`, base64 decoding,
`serde_json`, askama rendering, sqlite, the OS) is not part of `src/`; where a
claim depends on it, the corresponding definition carries a doc comment
starting with `Modelled from the spec:` and follows the specification's words.
-/

namespace AutoPeer

/-! ## Character-list utilities used by the textual parsers -/

/-- Splits a character list at the first occurrence of `t`: returns the
(possibly empty) longest head segment containing no `t`, and the remainder
(which is either empty or starts with `t`). -/
def breakAt (t : Char) : List Char → List Char × List Char
  | [] => ([], [])
  | c :: rest =>
    if c = t then ([], c :: rest)
    else
      let p := breakAt t rest
      (c :: p.1, p.2)

theorem breakAt_append (t : Char) (l : List Char) :
    (breakAt t l).1 ++ (breakAt t l).2 = l := by
  induction l with
  | nil => simp [breakAt]
  | cons c rest ih =>
    by_cases h : c = t
    · simp [breakAt, h]
    · simp [breakAt, h, ih]

theorem breakAt_fst_not_mem (t : Char) (l : List Char) :
    t ∉ (breakAt t l).1 := by
  induction l with
  | nil => simp [breakAt]
  | cons c rest ih =>
    by_cases h : c = t
    · simp [breakAt, h]
    · simp [breakAt, h, ih]
      exact fun hc => h hc.symm

theorem breakAt_snd_shape (t : Char) (l : List Char) :
    (breakAt t l).2 = [] ∨ ∃ rest, (breakAt t l).2 = t :: rest := by
  induction l with
  | nil => simp [breakAt]
  | cons c rest ih =>
    by_cases h : c = t
    · subst h; simp [breakAt]
    · simpa [breakAt, h] using ih

theorem breakAt_complete (t : Char) (a b : List Char) (ha : t ∉ a) :
    breakAt t (a ++ t :: b) = (a, t :: b) := by
  induction a with
  | nil => simp [breakAt]
  | cons c rest ih =>
    have hct : ¬ c = t := by
      intro h; exact ha (by simp [h])
    have hrest : t ∉ rest := fun h => ha (by simp [h])
    simp [breakAt, hct, ih hrest]

theorem breakAt_length (t : Char) (l : List Char) :
    (breakAt t l).1.length + (breakAt t l).2.length = l.length := by
  have h := congrArg List.length (breakAt_append t l)
  simpa using h

/-- Splits a character list into its colon-separated segments (the segments do
not contain `':'`; empty segments mark adjacent or leading/trailing colons). -/
def splitColons : List Char → List (List Char)
  | [] => [[]]
  | c :: rest =>
    if c = ':' then [] :: splitColons rest
    else
      match splitColons rest with
      | [] => [[c]]
      | p :: ps => (c :: p) :: ps

theorem splitColons_ne_nil (l : List Char) : splitColons l ≠ [] := by
  cases l with
  | nil => simp [splitColons]
  | cons c rest =>
    by_cases h : c = ':'
    · simp [splitColons, h]
    · simp only [splitColons, if_neg h]
      cases splitColons rest <;> simp

theorem splitColons_chars (l : List Char) :
    ∀ c ∈ l, c = ':' ∨ ∃ part ∈ splitColons l, c ∈ part := by
  induction l with
  | nil => simp
  | cons c rest ih =>
    intro d hd
    by_cases hdc : d = ':'
    · exact Or.inl hdc
    · right
      by_cases hc : c = ':'
      · rcases List.mem_cons.mp hd with h | h
        · exact absurd (h.trans hc) hdc
        · rcases ih d h with h2 | ⟨part, hpart, hdp⟩
          · exact absurd h2 hdc
          · exact ⟨part, by simp [splitColons, hc]; right; exact hpart, hdp⟩
      · rcases List.mem_cons.mp hd with h | h
        · subst h
          rcases hps : splitColons rest with _ | ⟨p, ps⟩
          · exact ⟨[d], by simp [splitColons, hc, hps], by simp⟩
          · exact ⟨d :: p, by simp [splitColons, hc, hps], by simp⟩
        · rcases ih d h with h2 | ⟨part, hpart, hdp⟩
          · exact absurd h2 hdc
          · rcases hps : splitColons rest with _ | ⟨p, ps⟩
            · exact absurd hps (splitColons_ne_nil rest)
            · rw [hps] at hpart
              rcases List.mem_cons.mp hpart with h3 | h3
              · exact ⟨c :: part, by simp [splitColons, hc, hps, h3], by simp [hdp]⟩
              · exact ⟨part, by simp [splitColons, hc, hps]; right; exact h3, hdp⟩

/-! ## Textual IPv6 addresses

The repository validates link-local addresses with
`self.wireguard_link_local.parse::<std::net::Ipv6Addr>()` and bracketed
endpoint hosts through the `url` crate; the textual-IPv6 parser itself lives in
the Rust standard library, not under `src/`. -/

/-- Value of a hexadecimal digit (by ASCII code), `none` for any other
character. -/
def hexVal (c : Char) : Option Nat :=
  if 48 ≤ c.toNat ∧ c.toNat ≤ 57 then some (c.toNat - 48)
  else if 97 ≤ c.toNat ∧ c.toNat ≤ 102 then some (c.toNat - 87)
  else if 65 ≤ c.toNat ∧ c.toNat ≤ 70 then some (c.toNat - 55)
  else none

theorem hexVal_lt (c : Char) (v : Nat) (h : hexVal c = some v) : v < 16 := by
  unfold hexVal at h
  split at h
  · next h1 => simp only [Option.some.injEq] at h; omega
  · split at h
    · next h1 => simp only [Option.some.injEq] at h; omega
    · split at h
      · next h1 => simp only [Option.some.injEq] at h; omega
      · exact absurd h (by simp)

/-- One group of an IPv6 address: one to four hexadecimal digits. -/
def parseGroup : List Char → Option Nat
  | [a] => hexVal a
  | [a, b] =>
    match hexVal a, hexVal b with
    | some va, some vb => some (va * 16 + vb)
    | _, _ => none
  | [a, b, c] =>
    match hexVal a, hexVal b, hexVal c with
    | some va, some vb, some vc => some ((va * 16 + vb) * 16 + vc)
    | _, _, _ => none
  | [a, b, c, d] =>
    match hexVal a, hexVal b, hexVal c, hexVal d with
    | some va, some vb, some vc, some vd =>
      some (((va * 16 + vb) * 16 + vc) * 16 + vd)
    | _, _, _, _ => none
  | _ => none

theorem parseGroup_lt (l : List Char) (v : Nat) (h : parseGroup l = some v) :
    v < 65536 := by
  match l with
  | [] => exact absurd h (by simp [parseGroup])
  | [a] => exact lt_trans (hexVal_lt a v h) (by norm_num)
  | [a, b] =>
    have h2 : (match hexVal a, hexVal b with
      | some va, some vb => some (va * 16 + vb)
      | _, _ => none) = some v := h
    split at h2
    · next va vb ha hb =>
      simp only [Option.some.injEq] at h2
      have := hexVal_lt a _ ha
      have := hexVal_lt b _ hb
      omega
    · exact absurd h2 (by simp)
  | [a, b, c] =>
    have h2 : (match hexVal a, hexVal b, hexVal c with
      | some va, some vb, some vc => some ((va * 16 + vb) * 16 + vc)
      | _, _, _ => none) = some v := h
    split at h2
    · next va vb vc ha hb hc =>
      simp only [Option.some.injEq] at h2
      have := hexVal_lt a _ ha
      have := hexVal_lt b _ hb
      have := hexVal_lt c _ hc
      omega
    · exact absurd h2 (by simp)
  | [a, b, c, d] =>
    have h2 : (match hexVal a, hexVal b, hexVal c, hexVal d with
      | some va, some vb, some vc, some vd =>
        some (((va * 16 + vb) * 16 + vc) * 16 + vd)
      | _, _, _, _ => none) = some v := h
    split at h2
    · next va vb vc vd ha hb hc hd =>
      simp only [Option.some.injEq] at h2
      have := hexVal_lt a _ ha
      have := hexVal_lt b _ hb
      have := hexVal_lt c _ hc
      have := hexVal_lt d _ hd
      omega
    · exact absurd h2 (by simp)
  | _ :: _ :: _ :: _ :: _ :: _ => exact absurd h (by simp [parseGroup])

theorem parseGroup_chars (l : List Char) (v : Nat) (h : parseGroup l = some v) :
    ∀ c ∈ l, (hexVal c).isSome := by
  match l with
  | [] => exact absurd h (by simp [parseGroup])
  | [a] =>
    intro c hc
    simp only [List.mem_singleton] at hc
    subst hc
    simp only [parseGroup] at h
    simp [h]
  | [a, b] =>
    have h2 : (match hexVal a, hexVal b with
      | some va, some vb => some (va * 16 + vb)
      | _, _ => none) = some v := h
    split at h2
    · next ha hb =>
      intro c hc
      rcases (by simpa using hc : c = a ∨ c = b) with h3 | h3 <;> subst h3 <;>
        simp [ha, hb]
    · exact absurd h2 (by simp)
  | [a, b, c] =>
    have h2 : (match hexVal a, hexVal b, hexVal c with
      | some va, some vb, some vc => some ((va * 16 + vb) * 16 + vc)
      | _, _, _ => none) = some v := h
    split at h2
    · next ha hb hc2 =>
      intro x hx
      rcases (by simpa using hx : x = a ∨ x = b ∨ x = c) with h3 | h3 | h3 <;>
        subst h3 <;> simp [ha, hb, hc2]
    · exact absurd h2 (by simp)
  | [a, b, c, d] =>
    have h2 : (match hexVal a, hexVal b, hexVal c, hexVal d with
      | some va, some vb, some vc, some vd =>
        some (((va * 16 + vb) * 16 + vc) * 16 + vd)
      | _, _, _, _ => none) = some v := h
    split at h2
    · next ha hb hc2 hd =>
      intro x hx
      rcases (by simpa using hx : x = a ∨ x = b ∨ x = c ∨ x = d) with
        h3 | h3 | h3 | h3 <;> subst h3 <;> simp [ha, hb, hc2, hd]
    · exact absurd h2 (by simp)
  | _ :: _ :: _ :: _ :: _ :: _ => exact absurd h (by simp [parseGroup])

/-- Applies `parseGroup` to every segment, failing if any segment fails. -/
def mapGroups : List (List Char) → Option (List Nat)
  | [] => some []
  | p :: ps =>
    match parseGroup p, mapGroups ps with
    | some v, some vs => some (v :: vs)
    | _, _ => none

theorem mapGroups_lt (parts : List (List Char)) (gs : List Nat)
    (h : mapGroups parts = some gs) : ∀ v ∈ gs, v < 65536 := by
  induction parts generalizing gs with
  | nil =>
    simp only [mapGroups, Option.some.injEq] at h
    subst h; simp
  | cons p ps ih =>
    have h2 : (match parseGroup p, mapGroups ps with
      | some v, some vs => some (v :: vs)
      | _, _ => none) = some gs := h
    split at h2
    · next v vs hp hps =>
      simp only [Option.some.injEq] at h2
      subst h2
      intro x hx
      rcases List.mem_cons.mp hx with h3 | h3
      · subst h3; exact parseGroup_lt p _ hp
      · exact ih _ hps x h3
    · exact absurd h2 (by simp)

theorem mapGroups_chars (parts : List (List Char)) (gs : List Nat)
    (h : mapGroups parts = some gs) :
    ∀ p ∈ parts, ∀ c ∈ p, (hexVal c).isSome := by
  induction parts generalizing gs with
  | nil => simp
  | cons a as ih =>
    have h2 : (match parseGroup a, mapGroups as with
      | some v, some vs => some (v :: vs)
      | _, _ => none) = some gs := h
    split at h2
    · next v vs hp hps =>
      intro q hq
      rcases List.mem_cons.mp hq with h3 | h3
      · subst h3; exact parseGroup_chars q _ hp
      · exact ih _ hps q h3
    · exact absurd h2 (by simp)

/-- Splits a character list at the first occurrence of `"::"`, when present. -/
def breakDoubleColon : List Char → Option (List Char × List Char)
  | [] => none
  | [_] => none
  | c :: c2 :: rest =>
    if c = ':' ∧ c2 = ':' then some ([], rest)
    else (breakDoubleColon (c2 :: rest)).map (fun p => (c :: p.1, p.2))

theorem breakDoubleColon_append (l a b : List Char)
    (h : breakDoubleColon l = some (a, b)) : l = a ++ ':' :: ':' :: b := by
  induction l generalizing a b with
  | nil => exact absurd h (by simp [breakDoubleColon])
  | cons c rest ih =>
    cases rest with
    | nil => exact absurd h (by simp [breakDoubleColon])
    | cons c2 rest2 =>
      by_cases hcc : c = ':' ∧ c2 = ':'
      · rw [breakDoubleColon, if_pos hcc] at h
        simp only [Option.some.injEq, Prod.mk.injEq] at h
        obtain ⟨h1, h2⟩ := h
        subst h1; subst h2
        simp [hcc.1, hcc.2]
      · rw [breakDoubleColon, if_neg hcc] at h
        simp only [Option.map_eq_some'] at h
        obtain ⟨⟨a2, b2⟩, hp, heq⟩ := h
        simp only [Prod.mk.injEq] at heq
        obtain ⟨h1, h2⟩ := heq
        subst h2
        rw [← h1]
        simp [ih _ _ hp]

/-- Modelled from the spec: parsing of a textual IPv6 address ("string must
parse as an IPv6 address"), as performed by the Rust standard library's
`Ipv6Addr` parser, which is not part of this repository.  Returns the eight
16-bit groups.  Covers hexadecimal groups separated by colons with at most one
`::` compression; the embedded-IPv4 trailing form is not modelled. -/
def ipv6ParseL (l : List Char) : Option (List Nat) :=
  match breakDoubleColon l with
  | none =>
    match mapGroups (splitColons l) with
    | some gs => if gs.length = 8 then some gs else none
    | none => none
  | some (front, back) =>
    match mapGroups (if front = [] then [] else splitColons front),
          mapGroups (if back = [] then [] else splitColons back) with
    | some f, some b =>
      if f.length + b.length ≤ 7 then
        some (f ++ List.replicate (8 - f.length - b.length) 0 ++ b)
      else none
    | _, _ => none

theorem ipv6ParseL_lt (l : List Char) (segs : List Nat)
    (h : ipv6ParseL l = some segs) : ∀ v ∈ segs, v < 65536 := by
  unfold ipv6ParseL at h
  split at h
  · split at h
    · next gs hgs =>
      split at h
      · simp only [Option.some.injEq] at h
        subst h
        exact mapGroups_lt _ _ hgs
      · exact absurd h (by simp)
    · exact absurd h (by simp)
  · split at h
    · next f b hf hb =>
      split at h
      · simp only [Option.some.injEq] at h
        subst h
        intro v hv
        simp only [List.mem_append, List.mem_replicate] at hv
        rcases hv with (hv | hv) | hv
        · exact mapGroups_lt _ _ hf v hv
        · omega
        · exact mapGroups_lt _ _ hb v hv
      · exact absurd h (by simp)
    · exact absurd h (by simp)

theorem mapGroups_if_chars (front : List Char) (f : List Nat)
    (hf : mapGroups (if front = [] then [] else splitColons front) = some f) :
    ∀ c ∈ front, c = ':' ∨ (hexVal c).isSome := by
  intro c hc
  by_cases hfe : front = []
  · subst hfe; simp at hc
  · rw [if_neg hfe] at hf
    rcases splitColons_chars front c hc with h2 | ⟨part, hpart, hcp⟩
    · exact Or.inl h2
    · exact Or.inr (mapGroups_chars _ _ hf part hpart c hcp)

/-- Every character of a string accepted by the IPv6 parser is a hexadecimal
digit or a colon; in particular `'['` and `']'` never occur in it. -/
theorem ipv6ParseL_chars (l : List Char) (segs : List Nat)
    (h : ipv6ParseL l = some segs) :
    ∀ c ∈ l, c = ':' ∨ (hexVal c).isSome := by
  unfold ipv6ParseL at h
  split at h
  · next hbrk =>
    split at h
    · next gs hgs =>
      intro c hc
      rcases splitColons_chars l c hc with h2 | ⟨part, hpart, hcp⟩
      · exact Or.inl h2
      · exact Or.inr (mapGroups_chars _ _ hgs part hpart c hcp)
    · exact absurd h (by simp)
  · next front back hbrk =>
    split at h
    · next f b hf hb =>
      have hl := breakDoubleColon_append l front back hbrk
      intro c hc
      rw [hl] at hc
      simp only [List.mem_append, List.mem_cons] at hc
      rcases hc with hc | hc | hc | hc
      · exact mapGroups_if_chars front f hf c hc
      · exact Or.inl hc
      · exact Or.inl hc
      · exact mapGroups_if_chars back b hb c hc
    · exact absurd h (by simp)

/-- String-level entry point of the IPv6 parser. -/
def ipv6Parse (s : String) : Option (List Nat) :=
  ipv6ParseL s.data

/-! ## Decimal numerals (ports, and the decimal rendering of `format!`) -/

/-- Value of a decimal digit (by ASCII code), `none` for any other
character. -/
def digitVal (c : Char) : Option Nat :=
  if 48 ≤ c.toNat ∧ c.toNat ≤ 57 then some (c.toNat - 48) else none

/-- Value of a non-empty string of decimal digits, `none` otherwise. -/
def digitsVal (l : List Char) : Option Nat :=
  match l with
  | [] => none
  | _ => go l 0
where
  /-- Accumulates digits left to right. -/
  go : List Char → Nat → Option Nat
    | [], acc => some acc
    | c :: rest, acc =>
      match digitVal c with
      | some d => go rest (acc * 10 + d)
      | none => none

/-- Parses the characters after the colon of an authority: an absent port is
`some none`, a numeral up to 65535 is `some (some v)`, anything else is a
parse failure (`none`), matching the `url` crate's `u16` port parsing. -/
def parsePort (l : List Char) : Option (Option Nat) :=
  if l = [] then some none
  else
    match digitsVal l with
    | some v => if v ≤ 65535 then some (some v) else none
    | none => none

/-! ## The endpoint check's URL authority

`is_valid_wireguard_endpoint` formats the endpoint as `wg://<endpoint>` and
feeds it to `url::Url::parse` (a third-party crate, not under `src/`),
then requires a host, a port, and a positive port value. -/

/-- Host of a parsed authority: a bracketed IPv6 literal or a name
(hostname or dotted IPv4). -/
inductive UrlHost where
  | name (h : String)
  | v6 (segs : List Nat)
deriving DecidableEq, Repr

/-- Modelled from the spec: the `host:port` shape that the spec ascribes to
`url::Url::parse` on `wg://<endpoint>` ("string must parse as `host:port`
(bracketed literal IPv6, hostname, or IPv4 all acceptable as host); port must
be present and in (0, 65535]").  A bracketed host must contain a valid IPv6
literal; an unbracketed host is any non-empty segment free of `':'`, `'['`
and `']'`; the port, when present, is a decimal numeral fitting in `u16`.
This definition handles the bracketed branch. -/
def parseBracketHost (rest : List Char) : Option (UrlHost × Option Nat) :=
  match breakAt ']' rest with
  | (inner, rem) =>
    match rem with
    | ']' :: rem2 =>
      match ipv6ParseL inner with
      | some segs =>
        match rem2 with
        | [] => some (.v6 segs, none)
        | ':' :: portCs => (parsePort portCs).map (fun po => (.v6 segs, po))
        | _ => none
      | none => none
    | _ => none

/-- Unbracketed branch of the authority parse: everything before the first
colon is the host (which must be non-empty and bracket-free), everything
after it the port. -/
def parsePlainHost (l : List Char) : Option (UrlHost × Option Nat) :=
  match breakAt ':' l with
  | (h, rest) =>
    if h = [] then none
    else if h.any (fun c => c = '[' ∨ c = ']') then none
    else
      match rest with
      | [] => some (.name ⟨h⟩, none)
      | ':' :: portCs => (parsePort portCs).map (fun po => (.name ⟨h⟩, po))
      | _ => none

/-- Dispatches on a leading `'['` between the bracketed-IPv6 and the plain
host form. -/
def parseAuthority (l : List Char) : Option (UrlHost × Option Nat) :=
  match l with
  | [] => none
  | c :: rest =>
    if c = '[' then parseBracketHost rest else parsePlainHost (c :: rest)

/-- Modelled from the spec: `url::Url::parse` restricted to the `wg://` URLs
the endpoint check builds; returns the authority's host and port. -/
def urlParseWg (u : String) : Option (UrlHost × Option Nat) :=
  match u.data with
  | 'w' :: 'g' :: ':' :: '/' :: '/' :: rest => parseAuthority rest
  | _ => none

/-! ## Standard base64 decoding

Used by `is_valid_wireguard_public_key` through the `base64` crate's
`STANDARD` engine (canonical padding, no trailing bits), which is not part of
this repository. -/

/-- Value of a standard-base64 alphabet character (by ASCII code). -/
def b64Val (c : Char) : Option Nat :=
  if 65 ≤ c.toNat ∧ c.toNat ≤ 90 then some (c.toNat - 65)
  else if 97 ≤ c.toNat ∧ c.toNat ≤ 122 then some (c.toNat - 97 + 26)
  else if 48 ≤ c.toNat ∧ c.toNat ≤ 57 then some (c.toNat - 48 + 52)
  else if c = '+' then some 62
  else if c = '/' then some 63
  else none

/-- Modelled from the spec: standard base64 decoding ("exactly 44 characters
of standard base64 and decode to exactly 32 raw bytes") with the `STANDARD`
engine's canonical padding: the input length is a multiple of four, `'='`
appears only as final-chunk padding, and discarded trailing bits must be
zero.  Returns the decoded bytes. -/
def b64DecodeChunks : List Char → Option (List Nat)
  | [] => some []
  | [a, b, '=', '='] =>
    match b64Val a, b64Val b with
    | some va, some vb => if vb % 16 = 0 then some [va * 4 + vb / 16] else none
    | _, _ => none
  | [a, b, c, '='] =>
    match b64Val a, b64Val b, b64Val c with
    | some va, some vb, some vc =>
      if vc % 4 = 0 then some [va * 4 + vb / 16, (vb % 16) * 16 + vc / 4]
      else none
    | _, _, _ => none
  | a :: b :: c :: d :: rest =>
    match b64Val a, b64Val b, b64Val c, b64Val d with
    | some va, some vb, some vc, some vd =>
      (b64DecodeChunks rest).map
        (fun bytes =>
          (va * 4 + vb / 16) :: ((vb % 16) * 16 + vc / 4) ::
            ((vc % 4) * 64 + vd) :: bytes)
    | _, _, _, _ => none
  | _ => none

/-- String-level entry point of the base64 decoder. -/
def b64Decode (s : String) : Option (List Nat) :=
  b64DecodeChunks s.data

/-! ## Decimal rendering

The interface name and the two config paths are produced with `format!`,
whose `u64` rendering is the usual decimal numeral. -/

/-- Character of one decimal digit. -/
def decDigitChar (n : Nat) : Char :=
  Char.ofNat (48 + n)

/-- Decimal digit characters of `n`, most significant first, as produced by
Rust's `format!` for an unsigned integer. -/
def decDigits (n : Nat) : List Char :=
  if _h : n < 10 then [decDigitChar n]
  else decDigits (n / 10) ++ [decDigitChar (n % 10)]
termination_by n
decreasing_by exact Nat.div_lt_self (by omega) (by omega)

/-- Decimal numeral of `n` as a string. -/
def natRepr (n : Nat) : String :=
  ⟨decDigits n⟩

theorem decDigits_lt_eq (n : Nat) (h : n < 10) :
    decDigits n = [decDigitChar n] := by
  rw [decDigits, dif_pos h]

theorem decDigits_ge_eq (n : Nat) (h : ¬ n < 10) :
    decDigits n = decDigits (n / 10) ++ [decDigitChar (n % 10)] := by
  conv_lhs => rw [decDigits]
  rw [dif_neg h]

theorem decDigits_ne_nil (n : Nat) : decDigits n ≠ [] := by
  by_cases h : n < 10
  · rw [decDigits_lt_eq n h]; simp
  · rw [decDigits_ge_eq n h]; simp

theorem decDigitChar_inj_aux :
    ∀ a, a < 10 → ∀ b, b < 10 → (decDigitChar a = decDigitChar b) = (a = b) := by
  decide

theorem decDigitChar_inj (a b : Nat) (ha : a < 10) (hb : b < 10)
    (h : decDigitChar a = decDigitChar b) : a = b := by
  rw [decDigitChar_inj_aux a ha b hb] at h
  exact h

theorem decDigits_inj (m : Nat) :
    ∀ n, decDigits m = decDigits n → m = n := by
  induction m using Nat.strong_induction_on with
  | _ m ih =>
    intro n h
    by_cases hm : m < 10 <;> by_cases hn : n < 10
    · rw [decDigits_lt_eq m hm, decDigits_lt_eq n hn] at h
      simp only [List.cons.injEq] at h
      exact decDigitChar_inj m n hm hn h.1
    · rw [decDigits_lt_eq m hm, decDigits_ge_eq n hn] at h
      rcases List.exists_cons_of_ne_nil (decDigits_ne_nil (n / 10)) with
        ⟨x, xs, hx⟩
      rw [hx] at h
      exact absurd h (by simp)
    · rw [decDigits_ge_eq m hm, decDigits_lt_eq n hn] at h
      rcases List.exists_cons_of_ne_nil (decDigits_ne_nil (m / 10)) with
        ⟨x, xs, hx⟩
      rw [hx] at h
      exact absurd h (by simp)
    · rw [decDigits_ge_eq m hm, decDigits_ge_eq n hn] at h
      have h2 := List.append_inj' h rfl
      have hdiv : m / 10 = n / 10 :=
        ih (m / 10) (Nat.div_lt_self (by omega) (by omega)) (n / 10) h2.1
      have hmod : m % 10 = n % 10 := by
        have h3 := h2.2
        simp only [List.cons.injEq] at h3
        exact decDigitChar_inj _ _ (Nat.mod_lt _ (by omega))
          (Nat.mod_lt _ (by omega)) h3.1
      omega

theorem natRepr_inj (m n : Nat) (h : natRepr m = natRepr n) : m = n := by
  have h2 : decDigits m = decDigits n := congrArg String.data h
  exact decDigits_inj m n h2

/-! ## Static process configuration (src/src/main.rs) -/

/-- Embeds `ApiConfig` from `src/src/main.rs`. -/
structure ApiConfig where
  api_port : Nat
  listen_address_v4 : String
  listen_address_v6 : String
  secret : String
deriving DecidableEq, Repr

/-- Embeds `PeerConfig` from `src/src/main.rs` (`port_prefix_number : u16`). -/
structure PeerConfig where
  link_local : String
  wireguard_private_key : String
  port_prefix_number : Nat
deriving DecidableEq, Repr

/-- Embeds `EnvironmentConfig` from `src/src/main.rs`. -/
structure EnvironmentConfig where
  init_system : String
  rc_service_path : String
  rc_update_path : String
  systemctl_path : String
  birdc_path : String
deriving DecidableEq, Repr

/-- Embeds `AppConfig` from `src/src/main.rs`. -/
structure AppConfig where
  api : ApiConfig
  peer : PeerConfig
  env : EnvironmentConfig
deriving DecidableEq, Repr

/-- Embeds `check_config` from `src/src/main.rs` (the startup validation
if-chain; the trailing empty-secret warning does not affect the result). -/
def check_config (cfg : AppConfig) : Except String Unit :=
  if cfg.peer.link_local = "" then
    .error "No link-local address found"
  else if cfg.peer.wireguard_private_key = "" then
    .error "No wireguard private key found"
  else if cfg.api.api_port = 0 then
    .error "Invalid API port"
  else if cfg.api.listen_address_v4 = "" ∧ cfg.api.listen_address_v6 = "" then
    .error "No listen address found"
  else if cfg.peer.port_prefix_number = 0 ∨ 6 ≤ cfg.peer.port_prefix_number then
    .error "Port prefix number must be between 1 and 5"
  else if cfg.env.init_system ≠ "systemd" ∧ cfg.env.init_system ≠ "openrc" then
    .error "Unsupported init system"
  else if cfg.env.init_system = "systemd" ∧ cfg.env.systemctl_path = "" then
    .error "Environment: systemctl binary path is empty"
  else if cfg.env.init_system = "openrc" ∧ cfg.env.rc_service_path = "" then
    .error "Environment: rc-service binary path is empty"
  else if cfg.env.init_system = "openrc" ∧ cfg.env.rc_update_path = "" then
    .error "Environment: rc-update binary path is empty"
  else if cfg.env.birdc_path = "" then
    .error "Environment: birdc binary path is empty"
  else
    .ok ()

/-! ## The peer request and its validators (src/src/model.rs) -/

/-- Embeds `Peer` from `src/src/model.rs` (`asn : u64`). -/
structure Peer where
  asn : Nat
  wireguard_endpoint : String
  wireguard_link_local : String
  wireguard_public_key : String
deriving DecidableEq, Repr

/-- Embeds `Peer::gen_interface_name`:
`format!("dn42_{}", self.asn % 10000)`. -/
def Peer.gen_interface_name (p : Peer) : String :=
  "dn42_" ++ natRepr (p.asn % 10000)

/-- Embeds `Peer::gen_wireguard_config_path`:
`format!("/etc/wireguard/{}.conf", self.gen_interface_name())`. -/
def Peer.gen_wireguard_config_path (p : Peer) : String :=
  "/etc/wireguard/" ++ p.gen_interface_name ++ ".conf"

/-- Embeds `Peer::gen_bird_config_path`:
`format!("/etc/bird/peers/{}.conf", self.gen_interface_name())`. -/
def Peer.gen_bird_config_path (p : Peer) : String :=
  "/etc/bird/peers/" ++ p.gen_interface_name ++ ".conf"

/-- Embeds `Peer::gen_listen_port`.  `CONFIG.peer.port_prefix_number` is
passed explicitly; `combined` cannot overflow `u64`. -/
def Peer.gen_listen_port (p : Peer) (cfg : AppConfig) : Except String Nat :=
  let asn_suffix := p.asn % 10000
  let combined := cfg.peer.port_prefix_number * 10000 + asn_suffix
  if 65535 < combined ∨ combined < 1024 then .error "Invalid port number"
  else .ok combined

/-- Embeds `Peer::is_valid_wireguard_endpoint`: formats `wg://<endpoint>`,
parses it as a URL and requires a host and a positive port. -/
def Peer.is_valid_wireguard_endpoint (p : Peer) : Bool :=
  match urlParseWg ("wg://" ++ p.wireguard_endpoint) with
  | some (_, some port) => decide (0 < port)
  | _ => false

/-- Embeds `Peer::is_valid_asn`. -/
def Peer.is_valid_asn (p : Peer) : Bool :=
  decide (4242420000 ≤ p.asn ∧ p.asn ≤ 4242429999)

/-- Embeds `Peer::is_valid_link_local`: parse as IPv6, then require
`(segments()[0] & 0xFFC0) == 0xFE80` (65472 and 65152). -/
def Peer.is_valid_link_local (p : Peer) : Bool :=
  match ipv6Parse p.wireguard_link_local with
  | some segs => (segs.headD 0 &&& 65472) == 65152
  | none => false

/-- Embeds `Peer::is_valid_wireguard_public_key`: length exactly 44 and a
successful base64 decode to exactly 32 bytes.  Rust's `len()` counts bytes
where `String.length` counts characters; the two agree on every string the
decoder accepts, and both sides reject every string where they differ. -/
def Peer.is_valid_wireguard_public_key (p : Peer) : Bool :=
  if p.wireguard_public_key.length ≠ 44 then false
  else
    match b64Decode p.wireguard_public_key with
    | some bytes => bytes.length == 32
    | none => false

/-! ## Rendered configuration documents (src/src/model.rs, src/src/gen_config.rs)

The askama templates live outside `src/`; rendering is modelled as an oracle
`WireguardConfig → Except String String` (resp. `BirdConfig → ...`) supplied
to the functions that call it. -/

/-- Embeds the `WireguardConfig` template context from `src/src/model.rs`. -/
structure WireguardConfig where
  wireguard_private_key : String
  wireguard_listen_port : Nat
  wireguard_link_local_ipv6 : String
  wireguard_peer_public_key : String
  wireguard_peer_endpoint : String
deriving DecidableEq, Repr

/-- Embeds the `BirdConfig` template context from `src/src/model.rs`. -/
structure BirdConfig where
  interface_name : String
  wireguard_link_local_ipv6 : String
  peer_link_local_ipv6 : String
  peer_asn : Nat
deriving DecidableEq, Repr

/-- Embeds `gen_wireguard_config` from `src/src/gen_config.rs`: derive the
listen port, build the template context, render. -/
def gen_wireguard_config (cfg : AppConfig)
    (renderWg : WireguardConfig → Except String String) (peer : Peer) :
    Except String String :=
  match peer.gen_listen_port cfg with
  | .error e => .error e
  | .ok listen_port =>
    match renderWg
      { wireguard_private_key := cfg.peer.wireguard_private_key
        wireguard_listen_port := listen_port
        wireguard_link_local_ipv6 := cfg.peer.link_local
        wireguard_peer_public_key := peer.wireguard_public_key
        wireguard_peer_endpoint := peer.wireguard_endpoint } with
    | .ok out => .ok out
    | .error e => .error ("Failed to render WireGuard config: " ++ e)

/-- Embeds `gen_bird_config` from `src/src/gen_config.rs`. -/
def gen_bird_config (cfg : AppConfig)
    (renderBird : BirdConfig → Except String String) (peer : Peer) :
    Except String String :=
  match renderBird
    { interface_name := peer.gen_interface_name
      wireguard_link_local_ipv6 := cfg.peer.link_local
      peer_link_local_ipv6 := peer.wireguard_link_local
      peer_asn := peer.asn } with
  | .ok out => .ok out
  | .error e => .error ("Failed to render BIRD config: " ++ e)

/-! ## Host mutation (src/src/system.rs)

External commands and filesystem operations are modelled by oracles: a
command oracle assigning each issued command an outcome, a write oracle and a
remove oracle for the filesystem.  Each function returns the ordered trace of
external commands it issued together with its result.  The process-wide
`SYSTEM_OP_LOCK` serialization is a concurrency concern outside this
sequential embedding. -/

/-- An external command: a program and its argument list. -/
inductive Cmd where
  | exec (program : String) (args : List String)
deriving DecidableEq, Repr

/-- Outcome of one external command, as observed through
`Command::output()`: spawn success with zero or non-zero exit status (the
latter carrying captured standard error), or a spawn-level error propagated
by `?`. -/
inductive CmdOutcome where
  | success
  | exitFailure (stderr : String)
  | ioError (msg : String)
deriving DecidableEq, Repr

/-- Runs a list of commands in order, each paired with the error-message text
prepended to its captured standard error, stopping at the first failure.
Returns the trace of issued commands and the overall result. -/
def runCmds (oracle : Cmd → CmdOutcome) :
    List (Cmd × String) → List Cmd × Except String Unit
  | [] => ([], .ok ())
  | (c, msg) :: rest =>
    match oracle c with
    | .success =>
      let r := runCmds oracle rest
      (c :: r.1, r.2)
    | .exitFailure stderr => ([c], .error (msg ++ stderr))
    | .ioError m => ([c], .error m)

/-- Command list of `apply_config` under systemd: start the tunnel unit,
enable it, reload the routing daemon. -/
def applyCmdsSystemd (cfg : AppConfig) (interface_name : String) :
    List (Cmd × String) :=
  [(.exec cfg.env.systemctl_path ["start", "wg-quick@" ++ interface_name],
    "Failed to start wireguard tunnel: "),
   (.exec cfg.env.systemctl_path ["enable", "wg-quick@" ++ interface_name],
    "Failed to set starting wireguard tunnel at startup: "),
   (.exec cfg.env.birdc_path ["configure"],
    "Failed to reconfigure bird daemon: ")]

/-- Command list of `apply_config` under openrc: create the service symlink,
start the service, add it to the default runlevel, reload the routing
daemon. -/
def applyCmdsOpenrc (cfg : AppConfig) (interface_name : String) :
    List (Cmd × String) :=
  [(.exec "ln" ["-s", "/etc/init.d/wg-quick",
      "/etc/init.d/wg-quick." ++ interface_name],
    "Failed to create symbolic link: "),
   (.exec cfg.env.rc_service_path ["wg-quick." ++ interface_name, "start"],
    "Failed to start service: "),
   (.exec cfg.env.rc_update_path
      ["add", "wg-quick." ++ interface_name, "default"],
    "Failed to add service to default runlevel: "),
   (.exec cfg.env.birdc_path ["configure"],
    "Failed to reconfigure bird daemon: ")]

/-- Embeds `apply_config` from `src/src/system.rs`. -/
def apply_config (cfg : AppConfig) (oracle : Cmd → CmdOutcome)
    (interface_name : String) : List Cmd × Except String Unit :=
  if cfg.env.init_system = "systemd" then
    runCmds oracle (applyCmdsSystemd cfg interface_name)
  else if cfg.env.init_system = "openrc" then
    runCmds oracle (applyCmdsOpenrc cfg interface_name)
  else
    ([], .error ("Unsupported init system: " ++ cfg.env.init_system))

/-- Embeds `save_config` from `src/src/system.rs`: write the tunnel config,
then the routing config, through the filesystem write oracle `wr`. -/
def save_config (wr : String → String → Except String Unit)
    (wg_config_path wg_config bird_config_path bird_config : String) :
    Except String Unit :=
  match wr wg_config_path wg_config with
  | .error e => .error e
  | .ok _ => wr bird_config_path bird_config

/-- Embeds `delete_config` from `src/src/system.rs` through the filesystem
remove oracle `rm`. -/
def delete_config (rm : String → Except String Unit)
    (wg_config_path bird_config_path : String) : Except String Unit :=
  match rm wg_config_path with
  | .error e => .error e
  | .ok _ => rm bird_config_path

/-- Embeds `remove_config` from `src/src/system.rs`: under systemd, disable
and stop the tunnel unit, delete both config files, reload the routing
daemon; under openrc, stop the service, drop it from the runlevel, delete
the symlink and both config files, reload the routing daemon. -/
def remove_config (cfg : AppConfig) (oracle : Cmd → CmdOutcome)
    (rm : String → Except String Unit)
    (interface_name wg_config_path bird_config_path : String) :
    List Cmd × Except String Unit :=
  if cfg.env.init_system = "systemd" then
    let item := "wg-quick@" ++ interface_name
    match oracle (.exec cfg.env.systemctl_path ["disable", item]) with
    | .exitFailure stderr =>
      ([.exec cfg.env.systemctl_path ["disable", item]],
       .error ("Failed to disable wireguard tunnel: " ++ stderr))
    | .ioError m => ([.exec cfg.env.systemctl_path ["disable", item]], .error m)
    | .success =>
      match oracle (.exec cfg.env.systemctl_path ["stop", item]) with
      | .exitFailure stderr =>
        ([.exec cfg.env.systemctl_path ["disable", item],
          .exec cfg.env.systemctl_path ["stop", item]],
         .error ("Failed to stop wireguard tunnel: " ++ stderr))
      | .ioError m =>
        ([.exec cfg.env.systemctl_path ["disable", item],
          .exec cfg.env.systemctl_path ["stop", item]], .error m)
      | .success =>
        let tr := [Cmd.exec cfg.env.systemctl_path ["disable", item],
                   Cmd.exec cfg.env.systemctl_path ["stop", item]]
        match delete_config rm wg_config_path bird_config_path with
        | .error e => (tr, .error e)
        | .ok _ =>
          match oracle (.exec cfg.env.birdc_path ["configure"]) with
          | .exitFailure stderr =>
            (tr ++ [.exec cfg.env.birdc_path ["configure"]],
             .error ("Failed to reconfigure bird daemon: " ++ stderr))
          | .ioError m =>
            (tr ++ [.exec cfg.env.birdc_path ["configure"]], .error m)
          | .success => (tr ++ [.exec cfg.env.birdc_path ["configure"]], .ok ())
  else if cfg.env.init_system = "openrc" then
    let item := "wg-quick." ++ interface_name
    match oracle (.exec cfg.env.rc_service_path [item, "stop"]) with
    | .exitFailure stderr =>
      ([.exec cfg.env.rc_service_path [item, "stop"]],
       .error ("Failed to stop service: " ++ stderr))
    | .ioError m => ([.exec cfg.env.rc_service_path [item, "stop"]], .error m)
    | .success =>
      match oracle (.exec cfg.env.rc_update_path ["del", item, "default"]) with
      | .exitFailure stderr =>
        ([.exec cfg.env.rc_service_path [item, "stop"],
          .exec cfg.env.rc_update_path ["del", item, "default"]],
         .error ("Failed to remove service from default runlevel: " ++ stderr))
      | .ioError m =>
        ([.exec cfg.env.rc_service_path [item, "stop"],
          .exec cfg.env.rc_update_path ["del", item, "default"]], .error m)
      | .success =>
        let tr := [Cmd.exec cfg.env.rc_service_path [item, "stop"],
                   Cmd.exec cfg.env.rc_update_path ["del", item, "default"]]
        match rm ("/etc/init.d/" ++ item) with
        | .error e => (tr, .error e)
        | .ok _ =>
          match delete_config rm wg_config_path bird_config_path with
          | .error e => (tr, .error e)
          | .ok _ =>
            match oracle (.exec cfg.env.birdc_path ["configure"]) with
            | .exitFailure stderr =>
              (tr ++ [.exec cfg.env.birdc_path ["configure"]],
               .error ("Failed to reconfigure bird daemon: " ++ stderr))
            | .ioError m =>
              (tr ++ [.exec cfg.env.birdc_path ["configure"]], .error m)
            | .success =>
              (tr ++ [.exec cfg.env.birdc_path ["configure"]], .ok ())
  else
    ([], .error ("Unsupported init system: " ++ cfg.env.init_system))

/-! ## The peer registry (src/src/db.rs)

The sqlite table keyed by `asn` is modelled as a list of rows; the `UNIQUE`
primary-key violation and the no-rows cases map to `AlreadyExist` /
`NotFound` exactly as the `From<rusqlite::Error>` conversion does.  Other
backing-store faults (arbitrary rusqlite errors, a poisoned connection lock)
are injected by the handlers' `dbFault` parameters. -/

/-- Embeds `PeerDbError` from `src/src/db.rs` (`RusqliteError` carries the
rendered error text). -/
inductive PeerDbError where
  | NotFound
  | AlreadyExist
  | RusqliteError (err : String)
  | LockError (msg : String)
deriving DecidableEq, Repr

/-- Embeds the `Display` implementation of `PeerDbError`. -/
def PeerDbError.message : PeerDbError → String
  | .NotFound => "Peer not found"
  | .AlreadyExist => "Peer already exists"
  | .RusqliteError err => "Rusqlite error: " ++ err
  | .LockError msg => "Mutex Lock error: " ++ msg

/-- Embeds `PeerDbInfo` from `src/src/model.rs`: one persisted registry
row. -/
structure PeerDbInfo where
  asn : Nat
  wireguard_endpoint : String
  wireguard_link_local : String
  wireguard_public_key : String
  interface_name : String
  wireguard_config_path : String
  bird_config_path : String
deriving DecidableEq, Repr

/-- Row inserted by `add_peer` for a request peer (its derived columns are
computed exactly as in the `INSERT` parameter list). -/
def Peer.toDbInfo (p : Peer) : PeerDbInfo :=
  { asn := p.asn
    wireguard_endpoint := p.wireguard_endpoint
    wireguard_link_local := p.wireguard_link_local
    wireguard_public_key := p.wireguard_public_key
    interface_name := p.gen_interface_name
    wireguard_config_path := p.gen_wireguard_config_path
    bird_config_path := p.gen_bird_config_path }

/-- Embeds `add_peer` from `src/src/db.rs`: the `INSERT` succeeds unless the
primary key `asn` is already present, in which case the unique-constraint
violation is converted to `AlreadyExist`. -/
def add_peer (reg : List PeerDbInfo) (p : Peer) :
    Except PeerDbError (List PeerDbInfo) :=
  if reg.any (fun row => row.asn == p.asn) then .error .AlreadyExist
  else .ok (reg ++ [p.toDbInfo])

/-- Embeds `get_peer_by_asn` from `src/src/db.rs`: `QueryReturnedNoRows`
converts to `NotFound`. -/
def get_peer_by_asn (reg : List PeerDbInfo) (asn : Nat) :
    Except PeerDbError PeerDbInfo :=
  match reg.find? (fun row => row.asn == asn) with
  | some row => .ok row
  | none => .error .NotFound

/-- Embeds `delete_peer_by_asn` from `src/src/db.rs`: zero affected rows is
`NotFound`; otherwise the affected-row count and the remaining rows. -/
def delete_peer_by_asn (reg : List PeerDbInfo) (asn : Nat) :
    Except PeerDbError (Nat × List PeerDbInfo) :=
  let remaining := reg.filter (fun row => ¬ row.asn = asn)
  let rows_affected := reg.length - remaining.length
  if rows_affected = 0 then .error .NotFound
  else .ok (rows_affected, remaining)

/-! ## The HTTP handlers (src/src/handler.rs)

Each handler is embedded from the point where the JSON body has been parsed
into a `Peer` (the earlier malformed-JSON branch returns 400 and touches
nothing).  A handler receives the current registry rows, the oracles for
rendering, filesystem and external commands, and a `dbFault`/`lookupFault`/
`deleteFault` parameter injecting the lock-poisoning and miscellaneous
rusqlite failure paths; it returns the HTTP response, the resulting registry
rows and the ordered trace of registry/host effects it performed. -/

/-- An HTTP response: status code, body text, optional content type. -/
structure Response where
  status : Nat
  body : String
  content_type : Option String
deriving DecidableEq, Repr

/-- One observable side effect of a handler. -/
inductive Effect where
  | dbInsert (asn : Nat)
  | dbLookup (asn : Nat)
  | dbDelete (asn : Nat)
  | hostSave (wg_path wg_body bird_path bird_body : String)
  | hostApply (interface_name : String)
  | hostRemove (interface_name wg_path bird_path : String)
deriving DecidableEq, Repr

/-- Embeds `handle_add` from `src/src/handler.rs`, after JSON parsing: the
four validators in order, then the registry insert, then config generation,
then `save_config`, then `apply_config`. -/
def handle_add (cfg : AppConfig)
    (renderWg : WireguardConfig → Except String String)
    (renderBird : BirdConfig → Except String String)
    (wr : String → String → Except String Unit)
    (oracle : Cmd → CmdOutcome)
    (dbFault : Option PeerDbError)
    (reg : List PeerDbInfo) (req_peer : Peer) :
    Response × List PeerDbInfo × List Effect :=
  if ¬ req_peer.is_valid_wireguard_endpoint then
    (⟨400, "Invalid Wireguard endpoint", none⟩, reg, [])
  else if ¬ req_peer.is_valid_asn then
    (⟨400, "Invalid ASN", none⟩, reg, [])
  else if ¬ req_peer.is_valid_link_local then
    (⟨400, "Invalid Link-Local address", none⟩, reg, [])
  else if ¬ req_peer.is_valid_wireguard_public_key then
    (⟨400, "Invalid Wireguard public key", none⟩, reg, [])
  else
    match (match dbFault with
           | some e => Except.error e
           | none => add_peer reg req_peer) with
    | .ok reg2 =>
      match gen_wireguard_config cfg renderWg req_peer with
      | .ok wg_config =>
        match gen_bird_config cfg renderBird req_peer with
        | .ok bird_config =>
          match save_config wr req_peer.gen_wireguard_config_path wg_config
              req_peer.gen_bird_config_path bird_config with
          | .ok _ =>
            match apply_config cfg oracle req_peer.gen_interface_name with
            | (_, .ok _) =>
              (⟨200, "Peer added: " ++ natRepr req_peer.asn, none⟩, reg2,
               [.dbInsert req_peer.asn,
                .hostSave req_peer.gen_wireguard_config_path wg_config
                  req_peer.gen_bird_config_path bird_config,
                .hostApply req_peer.gen_interface_name])
            | (_, .error e) =>
              (⟨500, "Failed to apply config: " ++ e, none⟩, reg2,
               [.dbInsert req_peer.asn,
                .hostSave req_peer.gen_wireguard_config_path wg_config
                  req_peer.gen_bird_config_path bird_config,
                .hostApply req_peer.gen_interface_name])
          | .error e =>
            (⟨500, "Failed to save config: " ++ e, none⟩, reg2,
             [.dbInsert req_peer.asn,
              .hostSave req_peer.gen_wireguard_config_path wg_config
                req_peer.gen_bird_config_path bird_config])
        | .error e =>
          (⟨500, "Failed to generate BIRD config: " ++ e, none⟩, reg2,
           [.dbInsert req_peer.asn])
      | .error e =>
        (⟨500, "Failed to generate WireGuard config: " ++ e, none⟩, reg2,
         [.dbInsert req_peer.asn])
    | .error (PeerDbError.AlreadyExist) =>
      (⟨409, "Peer already exists: " ++ natRepr req_peer.asn, none⟩, reg,
       [.dbInsert req_peer.asn])
    | .error (PeerDbError.RusqliteError err) =>
      (⟨500, "Database error: " ++ err, none⟩, reg, [.dbInsert req_peer.asn])
    | .error e =>
      (⟨500, "Unknown error: " ++ e.message, none⟩, reg,
       [.dbInsert req_peer.asn])

/-- Embeds `handle_del` from `src/src/handler.rs`, after JSON parsing: look
the peer up, tear down the host state, and only then delete the registry
row. -/
def handle_del (cfg : AppConfig) (oracle : Cmd → CmdOutcome)
    (rm : String → Except String Unit)
    (lookupFault deleteFault : Option PeerDbError)
    (reg : List PeerDbInfo) (asn : Nat) :
    Response × List PeerDbInfo × List Effect :=
  match (match lookupFault with
         | some e => Except.error e
         | none => get_peer_by_asn reg asn) with
  | .ok peer =>
    match remove_config cfg oracle rm peer.interface_name
        peer.wireguard_config_path peer.bird_config_path with
    | (_, .ok _) =>
      match (match deleteFault with
             | some e => Except.error e
             | none =>
               match delete_peer_by_asn reg asn with
               | .ok r => Except.ok r.2
               | .error e => Except.error e) with
      | .ok reg2 =>
        (⟨200, "Peer deleted: " ++ natRepr asn, none⟩, reg2,
         [.dbLookup asn,
          .hostRemove peer.interface_name peer.wireguard_config_path
            peer.bird_config_path,
          .dbDelete asn])
      | .error (PeerDbError.NotFound) =>
        (⟨400, "Peer not found: " ++ natRepr asn, none⟩, reg,
         [.dbLookup asn,
          .hostRemove peer.interface_name peer.wireguard_config_path
            peer.bird_config_path,
          .dbDelete asn])
      | .error (PeerDbError.RusqliteError err) =>
        (⟨500, "Database error: " ++ err, none⟩, reg,
         [.dbLookup asn,
          .hostRemove peer.interface_name peer.wireguard_config_path
            peer.bird_config_path,
          .dbDelete asn])
      | .error e =>
        (⟨500, "Unknown error: " ++ e.message, none⟩, reg,
         [.dbLookup asn,
          .hostRemove peer.interface_name peer.wireguard_config_path
            peer.bird_config_path,
          .dbDelete asn])
    | (_, .error e) =>
      (⟨500, "error: " ++ e, none⟩, reg,
       [.dbLookup asn,
        .hostRemove peer.interface_name peer.wireguard_config_path
          peer.bird_config_path])
  | .error (PeerDbError.NotFound) =>
    (⟨400, "Peer not found: " ++ natRepr asn, none⟩, reg, [.dbLookup asn])
  | .error (PeerDbError.RusqliteError err) =>
    (⟨500, "Database error: " ++ err, none⟩, reg, [.dbLookup asn])
  | .error e =>
    (⟨500, "Unknown error: " ++ e.message, none⟩, reg, [.dbLookup asn])

/-- Embeds `handle_get` from `src/src/handler.rs`, after JSON parsing.  JSON
serialization (`serde_json::to_string`, outside `src/`) is an oracle `ser`.
In the serialization-failure arm the source constructs a second `res`
binding that shadows the outer one and is dropped; the outer 200 response
with its empty body is what is returned, which the embedding mirrors with
the unused `_res2`. -/
def handle_get (ser : Peer → Except String String)
    (lookupFault : Option PeerDbError)
    (reg : List PeerDbInfo) (asn : Nat) : Response :=
  match (match lookupFault with
         | some e => Except.error e
         | none => get_peer_by_asn reg asn) with
  | .ok row =>
    let peer : Peer :=
      { asn := row.asn
        wireguard_endpoint := row.wireguard_endpoint
        wireguard_link_local := row.wireguard_link_local
        wireguard_public_key := row.wireguard_public_key }
    let res : Response := ⟨200, "", none⟩
    match ser peer with
    | .ok json_response =>
      { res with
          content_type := some "application/json; charset=utf-8"
          body := json_response }
    | .error e =>
      let _res2 : Response := ⟨500, "Failed to serialize peer: " ++ e, none⟩
      res
  | .error (PeerDbError.NotFound) =>
    ⟨400, "Peer not found: " ++ natRepr asn, none⟩
  | .error (PeerDbError.RusqliteError err) =>
    ⟨500, "Database error: " ++ err, none⟩
  | .error e =>
    ⟨500, "Unknown error: " ++ e.message, none⟩

/-! ## Claim theorems -/

theorem is_valid_asn_bounds (p : Peer) (h : p.is_valid_asn = true) :
    4242420000 ≤ p.asn ∧ p.asn ≤ 4242429999 := by
  simpa [Peer.is_valid_asn] using h

/-- C6: for every unsigned integer `n`, the autonomous-system-number check
accepts `n` iff `4242420000 ≤ n ≤ 4242429999`. -/
theorem is_valid_asn_iff (p : Peer) :
    p.is_valid_asn = true ↔ 4242420000 ≤ p.asn ∧ p.asn ≤ 4242429999 := by
  simp [Peer.is_valid_asn]

theorem check_config_port_bounds (cfg : AppConfig)
    (h : check_config cfg = .ok ()) :
    1 ≤ cfg.peer.port_prefix_number ∧ cfg.peer.port_prefix_number ≤ 5 := by
  unfold check_config at h
  by_cases hp : cfg.peer.port_prefix_number = 0 ∨
      6 ≤ cfg.peer.port_prefix_number
  · exfalso
    revert h
    split
    · simp
    · split
      · simp
      · split
        · simp
        · split
          · simp
          · simp [hp]
  · omega

/-- C5: listen-port derivation returns `port_prefix * 10000 + asn % 10000`
when that value lies in [1024, 65535] and a recoverable `Except.error`
otherwise; for every ASN in [4242420000, 4242429999] and every port-prefix
digit in [1, 5] (in particular under a configuration accepted by
`check_config`), the error branch is unreachable. -/
theorem gen_listen_port_spec (cfg : AppConfig) (p : Peer) :
    (1024 ≤ cfg.peer.port_prefix_number * 10000 + p.asn % 10000 ∧
        cfg.peer.port_prefix_number * 10000 + p.asn % 10000 ≤ 65535 →
      p.gen_listen_port cfg =
        .ok (cfg.peer.port_prefix_number * 10000 + p.asn % 10000)) ∧
    (cfg.peer.port_prefix_number * 10000 + p.asn % 10000 < 1024 ∨
        65535 < cfg.peer.port_prefix_number * 10000 + p.asn % 10000 →
      p.gen_listen_port cfg = .error "Invalid port number") ∧
    (1 ≤ cfg.peer.port_prefix_number → cfg.peer.port_prefix_number ≤ 5 →
        4242420000 ≤ p.asn → p.asn ≤ 4242429999 →
      p.gen_listen_port cfg =
        .ok (cfg.peer.port_prefix_number * 10000 + p.asn % 10000)) ∧
    (check_config cfg = .ok () → p.is_valid_asn = true →
      p.gen_listen_port cfg =
        .ok (cfg.peer.port_prefix_number * 10000 + p.asn % 10000)) := by
  refine ⟨?_, ?_, ?_, ?_⟩
  · intro h
    unfold Peer.gen_listen_port
    rw [if_neg (by omega)]
  · intro h
    unfold Peer.gen_listen_port
    rw [if_pos (by omega)]
  · intro h1 h2 h3 h4
    unfold Peer.gen_listen_port
    have hm : p.asn % 10000 < 10000 := Nat.mod_lt _ (by omega)
    rw [if_neg (by omega)]
  · intro hcc hasn
    have hb := check_config_port_bounds cfg hcc
    have ha := is_valid_asn_bounds p hasn
    unfold Peer.gen_listen_port
    have hm : p.asn % 10000 < 10000 := Nat.mod_lt _ (by omega)
    rw [if_neg (by omega)]

/-- Witness for `gen_listen_port_spec`: with port-prefix digit 2 and
ASN 4242420001 the derivation yields port 20001. -/
theorem gen_listen_port_spec_witness :
    (Peer.mk 4242420001 "1.2.3.4:51820" "fe80::1" "" ).gen_listen_port
      (AppConfig.mk ⟨8080, "0.0.0.0", "", "s"⟩ ⟨"fe80::100", "pk", 2⟩
        ⟨"systemd", "", "", "systemctl", "birdc"⟩) = .ok 20001 := by
  have h := (gen_listen_port_spec
    (AppConfig.mk ⟨8080, "0.0.0.0", "", "s"⟩ ⟨"fe80::100", "pk", 2⟩
      ⟨"systemd", "", "", "systemctl", "birdc"⟩)
    (Peer.mk 4242420001 "1.2.3.4:51820" "fe80::1" "" )).2.2.1
    (by decide) (by decide) (by decide) (by decide)
  simpa using h

/-- C8: the public-key check accepts a string iff it is exactly 44 characters
long and base64-decodes to exactly 32 raw bytes; every string of a different
length, or failing the decode, or decoding to a different byte count, is
rejected. -/
theorem is_valid_wireguard_public_key_iff (p : Peer) :
    p.is_valid_wireguard_public_key = true ↔
      p.wireguard_public_key.length = 44 ∧
      ∃ bytes, b64Decode p.wireguard_public_key = some bytes ∧
        bytes.length = 32 := by
  unfold Peer.is_valid_wireguard_public_key
  by_cases hl : p.wireguard_public_key.length = 44
  · rw [if_neg (by simpa using hl)]
    cases hd : b64Decode p.wireguard_public_key with
    | none => simp [hd, hl]
    | some bytes => simp [hd, hl]
  · rw [if_pos (by simpa using hl)]
    simp [hl]

/-- C9: in the Get operation, when the registry lookup succeeds but JSON
serialization fails, the handler returns status 200 with an empty body and
no content type: the 500 response built in the failure arm is bound to a
shadowing variable and never returned. -/
theorem handle_get_serialization_failure_shadowed
    (ser : Peer → Except String String) (reg : List PeerDbInfo) (asn : Nat)
    (row : PeerDbInfo) (e : String)
    (hlookup : get_peer_by_asn reg asn = .ok row)
    (hser : ser ⟨row.asn, row.wireguard_endpoint, row.wireguard_link_local,
      row.wireguard_public_key⟩ = .error e) :
    handle_get ser none reg asn = ⟨200, "", none⟩ := by
  unfold handle_get
  rw [hlookup]
  simp only [hser]

/-- Witness for `handle_get_serialization_failure_shadowed` at a concrete
registry row and an always-failing serializer. -/
theorem handle_get_serialization_failure_shadowed_witness :
    handle_get (fun _ => .error "serde failure") none
      [⟨4242420001, "1.2.3.4:51820", "fe80::1", "k", "dn42_1",
        "/etc/wireguard/dn42_1.conf", "/etc/bird/peers/dn42_1.conf"⟩]
      4242420001 = ⟨200, "", none⟩ :=
  handle_get_serialization_failure_shadowed (fun _ => .error "serde failure")
    [⟨4242420001, "1.2.3.4:51820", "fe80::1", "k", "dn42_1",
      "/etc/wireguard/dn42_1.conf", "/etc/bird/peers/dn42_1.conf"⟩]
    4242420001
    ⟨4242420001, "1.2.3.4:51820", "fe80::1", "k", "dn42_1",
      "/etc/wireguard/dn42_1.conf", "/etc/bird/peers/dn42_1.conf"⟩
    "serde failure" rfl rfl

/-- C10: two distinct ASNs inside the valid block derive distinct interface
names, and hence distinct tunnel-config and routing-config paths. -/
theorem derived_names_and_paths_injective (p q : Peer)
    (hp : p.is_valid_asn = true) (hq : q.is_valid_asn = true)
    (hne : p.asn ≠ q.asn) :
    p.gen_interface_name ≠ q.gen_interface_name ∧
    p.gen_wireguard_config_path ≠ q.gen_wireguard_config_path ∧
    p.gen_bird_config_path ≠ q.gen_bird_config_path := by
  have hp2 := is_valid_asn_bounds p hp
  have hq2 := is_valid_asn_bounds q hq
  have hmod : p.asn % 10000 ≠ q.asn % 10000 := by omega
  have hname : p.gen_interface_name ≠ q.gen_interface_name := by
    intro h
    unfold Peer.gen_interface_name at h
    have hdata : ("dn42_".data ++ (natRepr (p.asn % 10000)).data) =
        ("dn42_".data ++ (natRepr (q.asn % 10000)).data) :=
      congrArg String.data h
    have hrepr : (natRepr (p.asn % 10000)).data =
        (natRepr (q.asn % 10000)).data :=
      List.append_cancel_left hdata
    exact hmod (decDigits_inj _ _ hrepr)
  refine ⟨hname, ?_, ?_⟩
  · intro h
    unfold Peer.gen_wireguard_config_path at h
    have hdata := congrArg String.data h
    have h2 : ("/etc/wireguard/".data ++ p.gen_interface_name.data) ++
        ".conf".data =
        ("/etc/wireguard/".data ++ q.gen_interface_name.data) ++
        ".conf".data := hdata
    have h3 := List.append_cancel_right h2
    have h4 := List.append_cancel_left h3
    exact hname (congrArg String.mk h4)
  · intro h
    unfold Peer.gen_bird_config_path at h
    have hdata := congrArg String.data h
    have h2 : ("/etc/bird/peers/".data ++ p.gen_interface_name.data) ++
        ".conf".data =
        ("/etc/bird/peers/".data ++ q.gen_interface_name.data) ++
        ".conf".data := hdata
    have h3 := List.append_cancel_right h2
    have h4 := List.append_cancel_left h3
    exact hname (congrArg String.mk h4)

/-- Witness for `derived_names_and_paths_injective` at ASNs 4242420001 and
4242420002. -/
theorem derived_names_and_paths_injective_witness :
    (Peer.mk 4242420001 "" "" "").gen_interface_name ≠
      (Peer.mk 4242420002 "" "" "").gen_interface_name ∧
    (Peer.mk 4242420001 "" "" "").gen_wireguard_config_path ≠
      (Peer.mk 4242420002 "" "" "").gen_wireguard_config_path ∧
    (Peer.mk 4242420001 "" "" "").gen_bird_config_path ≠
      (Peer.mk 4242420002 "" "" "").gen_bird_config_path :=
  derived_names_and_paths_injective _ _ (by decide) (by decide) (by decide)

set_option maxRecDepth 4000 in
set_option maxHeartbeats 2000000 in
theorem mask_check_aux : ∀ q, q < 1024 → ∀ r, r < 64 →
    (((q * 64 + r) &&& 65472) == 65152) = (q == 1018) := by
  decide

theorem mask_check (v : Nat) (hv : v < 65536) :
    (((v &&& 65472) == 65152) = true) ↔ v >>> 6 = 1018 := by
  have h := mask_check_aux (v / 64) (by omega) (v % 64) (by omega)
  have hsplit : v / 64 * 64 + v % 64 = v := by omega
  rw [hsplit] at h
  rw [h]
  rw [Nat.shiftRight_eq_div_pow]
  norm_num

/-- C7: the link-local check accepts a string iff it parses as an IPv6
address whose first 16-bit group has its top 10 bits equal to the prefix
1111111010 (1018, i.e. `fe80::/10`); every string the IPv6 parser rejects is
rejected. -/
theorem is_valid_link_local_iff (p : Peer) :
    p.is_valid_link_local = true ↔
      ∃ segs, ipv6Parse p.wireguard_link_local = some segs ∧
        segs.headD 0 >>> 6 = 1018 := by
  unfold Peer.is_valid_link_local
  cases hp : ipv6Parse p.wireguard_link_local with
  | none => simp
  | some segs =>
    have hbound : segs.headD 0 < 65536 := by
      cases hsegs : segs with
      | nil => simp
      | cons x xs =>
        have := ipv6ParseL_lt p.wireguard_link_local.data segs hp
        rw [hsegs] at this
        simpa using this x (by simp)
    rw [mask_check (segs.headD 0) hbound]
    simp

/-- C2: in the Delete workflow, when the registry lookup succeeds but host
teardown fails, the registry rows are left unchanged, a 500 result is
returned and the registry delete is not attempted; moreover (for any fault
injection) the registry delete effect occurs only when the lookup succeeded
and `remove_config` on the looked-up row succeeded. -/
theorem handle_del_teardown_failure (cfg : AppConfig)
    (oracle : Cmd → CmdOutcome) (rm : String → Except String Unit)
    (deleteFault : Option PeerDbError) (reg : List PeerDbInfo) (asn : Nat)
    (info : PeerDbInfo) (e : String)
    (hlookup : get_peer_by_asn reg asn = .ok info)
    (hrem : (remove_config cfg oracle rm info.interface_name
      info.wireguard_config_path info.bird_config_path).2 = .error e) :
    (handle_del cfg oracle rm none deleteFault reg asn).1.status = 500 ∧
    (handle_del cfg oracle rm none deleteFault reg asn).2.1 = reg ∧
    Effect.dbDelete asn ∉ (handle_del cfg oracle rm none deleteFault
      reg asn).2.2 ∧
    (∀ lookupFault deleteFault2,
      Effect.dbDelete asn ∈ (handle_del cfg oracle rm lookupFault deleteFault2
        reg asn).2.2 →
      ∃ row, get_peer_by_asn reg asn = .ok row ∧
        (remove_config cfg oracle rm row.interface_name
          row.wireguard_config_path row.bird_config_path).2 = .ok ()) := by
  have hmain : (handle_del cfg oracle rm none deleteFault reg asn).1.status =
      500 ∧
      (handle_del cfg oracle rm none deleteFault reg asn).2.1 = reg ∧
      Effect.dbDelete asn ∉ (handle_del cfg oracle rm none deleteFault
        reg asn).2.2 := by
    unfold handle_del
    simp only [hlookup]
    rcases hrc : remove_config cfg oracle rm info.interface_name
        info.wireguard_config_path info.bird_config_path with ⟨tr, res⟩
    rw [hrc] at hrem
    simp only at hrem
    subst hrem
    simp
  refine ⟨hmain.1, hmain.2.1, hmain.2.2, ?_⟩
  intro lf df2 hmem
  cases lf with
  | some e2 =>
    unfold handle_del at hmem
    rcases e2 <;> simp at hmem
  | none =>
    unfold handle_del at hmem
    cases hg : get_peer_by_asn reg asn with
    | error e2 =>
      simp only [hg] at hmem
      rcases e2 <;> simp at hmem
    | ok row =>
      simp only [hg] at hmem
      rcases hrc : remove_config cfg oracle rm row.interface_name
          row.wireguard_config_path row.bird_config_path with ⟨tr, res⟩
      rw [hrc] at hmem
      cases res with
      | error e3 => simp at hmem
      | ok u =>
        refine ⟨row, rfl, ?_⟩
        rw [hrc]

/-- Example configuration (systemd) used by concrete witnesses. -/
def cfgSystemdEx : AppConfig :=
  ⟨⟨8080, "0.0.0.0", "", "secret1"⟩, ⟨"fe80::100", "privkey", 2⟩,
   ⟨"systemd", "/sbin/rc-service", "/sbin/rc-update", "/usr/bin/systemctl",
    "/usr/sbin/birdc"⟩⟩

/-- Example registry row used by concrete witnesses. -/
def rowEx : PeerDbInfo :=
  ⟨4242420001, "1.2.3.4:51820", "fe80::1",
   "AAAAAAAAAAAAAAAAAAAAAAAAAAAAAAAAAAAAAAAAAAA=", "dn42_1",
   "/etc/wireguard/dn42_1.conf", "/etc/bird/peers/dn42_1.conf"⟩

/-- Witness for `handle_del_teardown_failure`: a failing first teardown
command leaves the one-row registry intact and yields a 500. -/
theorem handle_del_teardown_failure_witness :
    (handle_del cfgSystemdEx (fun _ => .exitFailure "unit failed")
      (fun _ => .ok ()) none none [rowEx] 4242420001).1.status = 500 ∧
    (handle_del cfgSystemdEx (fun _ => .exitFailure "unit failed")
      (fun _ => .ok ()) none none [rowEx] 4242420001).2.1 = [rowEx] ∧
    Effect.dbDelete 4242420001 ∉ (handle_del cfgSystemdEx
      (fun _ => .exitFailure "unit failed") (fun _ => .ok ()) none none
      [rowEx] 4242420001).2.2 := by
  have h := handle_del_teardown_failure cfgSystemdEx
    (fun _ => .exitFailure "unit failed") (fun _ => .ok ()) none [rowEx]
    4242420001 rowEx "Failed to disable wireguard tunnel: unit failed"
    rfl rfl
  exact ⟨h.1, h.2.1, h.2.2.1⟩

/-- Example valid peer request used by concrete witnesses. -/
def peerEx : Peer :=
  ⟨4242420001, "1.2.3.4:51820", "fe80::1",
   "AAAAAAAAAAAAAAAAAAAAAAAAAAAAAAAAAAAAAAAAAAA="⟩

/-- Always-failing WireGuard-template renderer. -/
def renderWgFail : WireguardConfig → Except String String :=
  fun _ => .error "template error"

/-- Always-succeeding renderers and filesystem/command oracles. -/
def renderWgOk : WireguardConfig → Except String String :=
  fun _ => .ok "wg config body"

def renderBirdOk : BirdConfig → Except String String :=
  fun _ => .ok "bird config body"

def wrOk : String → String → Except String Unit := fun _ _ => .ok ()

def cmdOk : Cmd → CmdOutcome := fun _ => .success

/-- C1, counterexample: for the validated request `peerEx` whose derivation
step fails (the WireGuard template fails to render), `handle_add` still
creates the registry row for that ASN, because the source performs the
registry insert before deriving the artifacts; the claim's "no registry row
for that ASN is created" is false on this input. -/
theorem handle_add_derivation_failure_inserts_row_cex :
    gen_wireguard_config cfgSystemdEx renderWgFail peerEx =
      .error "Failed to render WireGuard config: template error" ∧
    (handle_add cfgSystemdEx renderWgFail renderBirdOk wrOk cmdOk none []
      peerEx).1.status = 500 ∧
    (handle_add cfgSystemdEx renderWgFail renderBirdOk wrOk cmdOk none []
      peerEx).2.1 = [peerEx.toDbInfo] ∧
    ((handle_add cfgSystemdEx renderWgFail renderBirdOk wrOk cmdOk none []
      peerEx).2.1.any (fun row => row.asn == 4242420001)) = true := by
  exact ⟨rfl, rfl, rfl, rfl⟩

/-- C1, amended: in the Add workflow the registry insert precedes artifact
derivation; for every validated request not yet in the registry whose
derivation step fails (listen-port or template-rendering error, in either
document), the operation returns a 500 result, no host mutation is
attempted, but the registry row for that ASN has been created and remains. -/
theorem handle_add_derivation_failure_amended (cfg : AppConfig)
    (renderWg : WireguardConfig → Except String String)
    (renderBird : BirdConfig → Except String String)
    (wr : String → String → Except String Unit) (oracle : Cmd → CmdOutcome)
    (reg : List PeerDbInfo) (p : Peer) (e : String)
    (hv1 : p.is_valid_wireguard_endpoint = true)
    (hv2 : p.is_valid_asn = true)
    (hv3 : p.is_valid_link_local = true)
    (hv4 : p.is_valid_wireguard_public_key = true)
    (hnew : (reg.any (fun row => row.asn == p.asn)) = false)
    (hderiv : gen_wireguard_config cfg renderWg p = .error e ∨
      ((∃ s, gen_wireguard_config cfg renderWg p = .ok s) ∧
        gen_bird_config cfg renderBird p = .error e)) :
    (handle_add cfg renderWg renderBird wr oracle none reg p).1.status = 500 ∧
    (handle_add cfg renderWg renderBird wr oracle none reg p).2.1 =
      reg ++ [p.toDbInfo] ∧
    (handle_add cfg renderWg renderBird wr oracle none reg p).2.2 =
      [.dbInsert p.asn] := by
  unfold handle_add
  rw [hv1, hv2, hv3, hv4]
  simp only [not_true, if_false]
  have hadd : add_peer reg p = .ok (reg ++ [p.toDbInfo]) := by
    unfold add_peer
    rw [hnew]
    simp
  simp only [hadd]
  rcases hderiv with hwg | ⟨⟨s, hwg⟩, hbird⟩
  · rw [hwg]
    simp
  · rw [hwg, hbird]
    simp

theorem runCmds_all_success (oracle : Cmd → CmdOutcome)
    (l : List (Cmd × String)) (h : ∀ c ∈ l, oracle c.1 = .success) :
    runCmds oracle l = (l.map Prod.fst, .ok ()) := by
  induction l with
  | nil => rfl
  | cons c rest ih =>
    obtain ⟨c1, msg⟩ := c
    have hc : oracle c1 = .success := h (c1, msg) (by simp)
    simp only [runCmds, hc]
    rw [ih (fun d hd => h d (by simp [hd]))]
    simp

theorem runCmds_first_exit_failure (oracle : Cmd → CmdOutcome)
    (l : List (Cmd × String)) (n : Nat) (s : String) (hn : n < l.length)
    (hpre : ∀ i, (hi : i < l.length) → i < n →
      oracle (l.get ⟨i, hi⟩).1 = .success)
    (hfail : oracle (l.get ⟨n, hn⟩).1 = .exitFailure s) :
    runCmds oracle l =
      ((l.take (n + 1)).map Prod.fst, .error ((l.get ⟨n, hn⟩).2 ++ s)) := by
  induction l generalizing n with
  | nil => simp at hn
  | cons c rest ih =>
    obtain ⟨c1, msg⟩ := c
    cases n with
    | zero =>
      have hf : oracle c1 = .exitFailure s := hfail
      simp only [runCmds, hf]
      simp [List.get]
    | succ m =>
      have h0 : oracle c1 = .success :=
        hpre 0 (by simp) (by omega)
      have hn2 : m < rest.length := by
        simpa using hn
      have hpre2 : ∀ i, (hi : i < rest.length) → i < m →
          oracle (rest.get ⟨i, hi⟩).1 = .success := by
        intro i hi him
        exact hpre (i + 1) (by simpa using hi) (by omega)
      have hfail2 : oracle (rest.get ⟨m, hn2⟩).1 = .exitFailure s := hfail
      simp only [runCmds, h0]
      rw [ih m hn2 hpre2 hfail2]
      simp [List.get]

theorem runCmds_trace_front (oracle : Cmd → CmdOutcome)
    (l : List (Cmd × String)) :
    (runCmds oracle l).1 <+: l.map Prod.fst := by
  induction l with
  | nil => simp [runCmds]
  | cons c rest ih =>
    obtain ⟨c1, msg⟩ := c
    cases hc : oracle c1 with
    | success =>
      simp only [runCmds, hc]
      simpa using ih
    | exitFailure s => simp [runCmds, hc]
    | ioError m => simp [runCmds, hc]

theorem front_containing_last {α : Type} (x : α) (init tr : List α)
    (hpre : tr <+: init ++ [x]) (hx : x ∈ tr) (hninit : x ∉ init) :
    tr = init ++ [x] := by
  rcases hpre with ⟨t2, ht⟩
  rcases t2 with _ | ⟨y, t3⟩
  · simpa using ht
  · have hlen := congrArg List.length ht
    simp at hlen
    have hle : tr.length ≤ init.length := by omega
    have h1 : tr <+: init ++ [x] := ⟨y :: t3, ht⟩
    have h2 : init <+: init ++ [x] := ⟨[x], rfl⟩
    have h3 : tr <+: init := List.prefix_of_prefix_length_le h1 h2 hle
    exact absurd (h3.subset hx) hninit

/-- Oracle `oracle` lets every command of `l` up to (excluding) index `n`
succeed and fails command `n` with exit status carrying `s`. -/
def FailsFirstAt (oracle : Cmd → CmdOutcome) (l : List (Cmd × String))
    (n : Nat) (s : String) : Prop :=
  (∀ i, (hi : i < l.length) → i < n → oracle (l.get ⟨i, hi⟩).1 = .success) ∧
  ∃ hn : n < l.length, oracle (l.get ⟨n, hn⟩).1 = .exitFailure s

/-- The command that starts the tunnel service unit under the configured
init system. -/
def startCmd (cfg : AppConfig) (iface : String) : Cmd :=
  if cfg.env.init_system = "systemd" then
    .exec cfg.env.systemctl_path ["start", "wg-quick@" ++ iface]
  else
    .exec cfg.env.rc_service_path ["wg-quick." ++ iface, "start"]

/-- C3, amended: under systemd `apply_config` issues exactly the three
commands start / enable / routing-reload in that order; under openrc a
symlink-registration command precedes the start, giving four commands
(start, runlevel-add, routing-reload following); in both variants the first
non-zero exit status aborts the remaining commands and the reported error
carries that step's captured standard error, and the routing-reload command
is never issued before the tunnel start command. -/
theorem apply_config_amended (cfg : AppConfig) (oracle : Cmd → CmdOutcome)
    (iface : String) :
    (cfg.env.init_system = "systemd" →
      (applyCmdsSystemd cfg iface).length = 3 ∧
      ((∀ c ∈ applyCmdsSystemd cfg iface, oracle c.1 = .success) →
        apply_config cfg oracle iface =
          ([.exec cfg.env.systemctl_path ["start", "wg-quick@" ++ iface],
            .exec cfg.env.systemctl_path ["enable", "wg-quick@" ++ iface],
            .exec cfg.env.birdc_path ["configure"]], .ok ())) ∧
      (∀ n s, FailsFirstAt oracle (applyCmdsSystemd cfg iface) n s →
        ∃ hn : n < (applyCmdsSystemd cfg iface).length,
          apply_config cfg oracle iface =
            (((applyCmdsSystemd cfg iface).take (n + 1)).map Prod.fst,
             .error (((applyCmdsSystemd cfg iface).get ⟨n, hn⟩).2 ++ s)))) ∧
    (cfg.env.init_system = "openrc" →
      (applyCmdsOpenrc cfg iface).length = 4 ∧
      ((∀ c ∈ applyCmdsOpenrc cfg iface, oracle c.1 = .success) →
        apply_config cfg oracle iface =
          ([.exec "ln" ["-s", "/etc/init.d/wg-quick",
              "/etc/init.d/wg-quick." ++ iface],
            .exec cfg.env.rc_service_path ["wg-quick." ++ iface, "start"],
            .exec cfg.env.rc_update_path
              ["add", "wg-quick." ++ iface, "default"],
            .exec cfg.env.birdc_path ["configure"]], .ok ())) ∧
      (∀ n s, FailsFirstAt oracle (applyCmdsOpenrc cfg iface) n s →
        ∃ hn : n < (applyCmdsOpenrc cfg iface).length,
          apply_config cfg oracle iface =
            (((applyCmdsOpenrc cfg iface).take (n + 1)).map Prod.fst,
             .error (((applyCmdsOpenrc cfg iface).get ⟨n, hn⟩).2 ++ s)))) ∧
    (cfg.env.init_system = "systemd" ∨ cfg.env.init_system = "openrc" →
      ∀ tr res, apply_config cfg oracle iface = (tr, res) →
        Cmd.exec cfg.env.birdc_path ["configure"] ∈ tr →
        ∃ i j, i < j ∧ tr.get? i = some (startCmd cfg iface) ∧
          tr.get? j = some (Cmd.exec cfg.env.birdc_path ["configure"])) := by
  refine ⟨?_, ?_, ?_⟩
  · intro hsys
    refine ⟨by simp [applyCmdsSystemd], ?_, ?_⟩
    · intro hok
      unfold apply_config
      rw [if_pos hsys, runCmds_all_success oracle _ hok]
      simp [applyCmdsSystemd]
    · intro n s hf
      obtain ⟨hpre, hn, hfail⟩ := hf
      refine ⟨hn, ?_⟩
      unfold apply_config
      rw [if_pos hsys]
      exact runCmds_first_exit_failure oracle _ n s hn hpre hfail
  · intro horc
    have hnots : ¬ cfg.env.init_system = "systemd" := by
      rw [horc]; decide
    refine ⟨by simp [applyCmdsOpenrc], ?_, ?_⟩
    · intro hok
      unfold apply_config
      rw [if_neg hnots, if_pos horc, runCmds_all_success oracle _ hok]
      simp [applyCmdsOpenrc]
    · intro n s hf
      obtain ⟨hpre, hn, hfail⟩ := hf
      refine ⟨hn, ?_⟩
      unfold apply_config
      rw [if_neg hnots, if_pos horc]
      exact runCmds_first_exit_failure oracle _ n s hn hpre hfail
  · intro hinit tr res htr hmem
    rcases hinit with hsys | horc
    · have hpre : tr <+: (applyCmdsSystemd cfg iface).map Prod.fst := by
        have := runCmds_trace_front oracle (applyCmdsSystemd cfg iface)
        unfold apply_config at htr
        rw [if_pos hsys] at htr
        rw [htr] at this
        exact this
      have hfull : tr =
          [Cmd.exec cfg.env.systemctl_path ["start", "wg-quick@" ++ iface],
           Cmd.exec cfg.env.systemctl_path ["enable", "wg-quick@" ++ iface]] ++
          [Cmd.exec cfg.env.birdc_path ["configure"]] := by
        refine front_containing_last _ _ _ ?_ hmem (by simp)
        simpa [applyCmdsSystemd] using hpre
      refine ⟨0, 2, by omega, ?_, ?_⟩
      · rw [hfull]
        simp [startCmd, hsys]
      · rw [hfull]
        rfl
    · have hnots : ¬ cfg.env.init_system = "systemd" := by
        rw [horc]; decide
      have hpre : tr <+: (applyCmdsOpenrc cfg iface).map Prod.fst := by
        have := runCmds_trace_front oracle (applyCmdsOpenrc cfg iface)
        unfold apply_config at htr
        rw [if_neg hnots, if_pos horc] at htr
        rw [htr] at this
        exact this
      have hfull : tr =
          [Cmd.exec "ln" ["-s", "/etc/init.d/wg-quick",
             "/etc/init.d/wg-quick." ++ iface],
           Cmd.exec cfg.env.rc_service_path ["wg-quick." ++ iface, "start"],
           Cmd.exec cfg.env.rc_update_path
             ["add", "wg-quick." ++ iface, "default"]] ++
          [Cmd.exec cfg.env.birdc_path ["configure"]] := by
        refine front_containing_last _ _ _ ?_ hmem (by simp)
        simpa [applyCmdsOpenrc] using hpre
      refine ⟨1, 3, by omega, ?_, ?_⟩
      · rw [hfull]
        simp [startCmd, hnots]
      · rw [hfull]
        rfl

/-- Example configuration (openrc) used by concrete witnesses. -/
def cfgOpenrcEx : AppConfig :=
  ⟨⟨8080, "0.0.0.0", "", "secret1"⟩, ⟨"fe80::100", "privkey", 2⟩,
   ⟨"openrc", "/sbin/rc-service", "/sbin/rc-update", "/usr/bin/systemctl",
    "/usr/sbin/birdc"⟩⟩

/-- C3, counterexample: under the openrc variant, `apply_config` with every
command succeeding issues four external commands, not three as the claim
states (the symlink-registration command precedes the three-phase
sequence). -/
theorem apply_config_openrc_four_commands_cex :
    (apply_config cfgOpenrcEx cmdOk "dn42_1").1.length = 4 ∧
    ¬ (apply_config cfgOpenrcEx cmdOk "dn42_1").1.length = 3 := by
  decide

/-- Witness for `apply_config_amended`: the systemd all-success command
trace at a concrete configuration. -/
theorem apply_config_amended_witness :
    apply_config cfgSystemdEx cmdOk "dn42_1" =
      ([.exec "/usr/bin/systemctl" ["start", "wg-quick@" ++ "dn42_1"],
        .exec "/usr/bin/systemctl" ["enable", "wg-quick@" ++ "dn42_1"],
        .exec "/usr/sbin/birdc" ["configure"]], .ok ()) := by
  have h := ((apply_config_amended cfgSystemdEx cmdOk "dn42_1").1 rfl).2.1
    (fun c _ => rfl)
  exact h

/-- Witness for `handle_add_derivation_failure_amended` at the concrete
systemd configuration, valid request and failing renderer. -/
theorem handle_add_derivation_failure_amended_witness :
    (handle_add cfgSystemdEx renderWgFail renderBirdOk wrOk cmdOk none []
      peerEx).1.status = 500 ∧
    (handle_add cfgSystemdEx renderWgFail renderBirdOk wrOk cmdOk none []
      peerEx).2.1 = [] ++ [peerEx.toDbInfo] ∧
    (handle_add cfgSystemdEx renderWgFail renderBirdOk wrOk cmdOk none []
      peerEx).2.2 = [.dbInsert peerEx.asn] :=
  handle_add_derivation_failure_amended cfgSystemdEx renderWgFail renderBirdOk
    wrOk cmdOk [] peerEx "Failed to render WireGuard config: template error"
    (by decide) (by decide) (by decide) (by decide) rfl (Or.inl rfl)

/-! ## The endpoint check against the spec's host-and-port description -/

theorem parsePort_eq_some_some (l : List Char) (v : Nat) :
    parsePort l = some (some v) ↔ digitsVal l = some v ∧ v ≤ 65535 := by
  cases l with
  | nil => simp [parsePort, digitsVal]
  | cons c rest =>
    have hne : ¬ (c :: rest) = ([] : List Char) := by simp
    unfold parsePort
    rw [if_neg hne]
    cases hd : digitsVal (c :: rest) with
    | none => simp
    | some w =>
      by_cases hw : w ≤ 65535
      · constructor
        · intro h
          have h2 : (if w ≤ 65535 then some (some w) else none :
              Option (Option Nat)) = some (some v) := h
          rw [if_pos hw] at h2
          simp only [Option.some.injEq] at h2
          subst h2
          exact ⟨rfl, hw⟩
        · rintro ⟨h1, _⟩
          simp only [Option.some.injEq] at h1
          subst h1
          show (if w ≤ 65535 then some (some w) else none :
            Option (Option Nat)) = some (some w)
          rw [if_pos hw]
      · constructor
        · intro h
          have h2 : (if w ≤ 65535 then some (some w) else none :
              Option (Option Nat)) = some (some v) := h
          rw [if_neg hw] at h2
          exact absurd h2 (by simp)
        · rintro ⟨h1, h2⟩
          simp only [Option.some.injEq] at h1
          subst h1
          exact absurd h2 hw

/-- Modelled from the spec: the property "s parses as `host:port` (bracketed
literal IPv6, hostname, or IPv4 host) with a port present and in
(0, 65535]", stated declaratively over the authority characters: the string
splits as `host ++ ":" ++ port` where the host is non-empty and either a
bracketed valid IPv6 literal or colon- and bracket-free, and the port is a
decimal numeral with positive value at most 65535. -/
def SpecAuthority (d : List Char) : Prop :=
  ∃ host portCs : List Char, ∃ v : Nat,
    d = host ++ ':' :: portCs ∧
    host ≠ [] ∧
    ((∃ inner segs, host = '[' :: inner ++ [']'] ∧
        ipv6ParseL inner = some segs) ∨
      (':' ∉ host ∧ '[' ∉ host ∧ ']' ∉ host)) ∧
    digitsVal portCs = some v ∧ 0 < v ∧ v ≤ 65535

/-- The spec's `host:port` property of an endpoint string. -/
def SpecHostPort (s : String) : Prop :=
  SpecAuthority s.data

theorem ipv6ParseL_no_rbracket (inner : List Char) (segs : List Nat)
    (h : ipv6ParseL inner = some segs) : ']' ∉ inner := by
  intro hmem
  rcases ipv6ParseL_chars inner segs h ']' hmem with h2 | h2
  · exact absurd h2 (by decide)
  · rw [show hexVal ']' = none from rfl] at h2
    simp at h2

theorem parseAuthority_pos_port_iff (d : List Char) :
    (∃ h po, parseAuthority d = some (h, some po) ∧ 0 < po) ↔
      SpecAuthority d := by
  constructor
  · rintro ⟨h, po, hpa, hpo⟩
    cases d with
    | nil => exact absurd hpa (by simp [parseAuthority])
    | cons c rest =>
      by_cases hc : c = '['
      · subst hc
        have hpa2 : parseBracketHost rest = some (h, some po) := by
          simpa [parseAuthority] using hpa
        unfold parseBracketHost at hpa2
        rcases hbk : breakAt ']' rest with ⟨inner, rem⟩
        rw [hbk] at hpa2
        simp only at hpa2
        split at hpa2
        · cases hip : ipv6ParseL inner with
          | none => rw [hip] at hpa2; exact absurd hpa2 (by simp)
          | some segs =>
            rw [hip] at hpa2
            split at hpa2
            · rename_i gs hgs
              obtain rfl : gs = segs := by simpa using hgs.symm
              split at hpa2
              · exact absurd hpa2 (by simp)
              · rename_i portCs
                simp only [Option.map_eq_some'] at hpa2
                obtain ⟨po2, hpp, heq⟩ := hpa2
                simp only [Prod.mk.injEq] at heq
                have hpo2 : po2 = some po := heq.2
                subst hpo2
                obtain ⟨hdig, hle⟩ :=
                  (parsePort_eq_some_some portCs po).mp hpp
                refine ⟨'[' :: inner ++ [']'], portCs, po, ?_, by simp, ?_,
                  hdig, hpo, hle⟩
                · have hrest := breakAt_append ']' rest
                  rw [hbk] at hrest
                  simp only at hrest
                  rw [← hrest]
                  simp
                · exact Or.inl ⟨inner, gs, rfl, hip⟩
              · exact absurd hpa2 (by simp)
            · exact absurd hpa2 (by simp)
        · exact absurd hpa2 (by simp)
      · have hpa2 : parsePlainHost (c :: rest) = some (h, some po) := by
          simpa [parseAuthority, hc] using hpa
        unfold parsePlainHost at hpa2
        rcases hbk : breakAt ':' (c :: rest) with ⟨hst, rst⟩
        rw [hbk] at hpa2
        simp only at hpa2
        split at hpa2
        · exact absurd hpa2 (by simp)
        · next hne =>
          split at hpa2
          · exact absurd hpa2 (by simp)
          · next hbrk =>
            split at hpa2
            · exact absurd hpa2 (by simp)
            · next portCs =>
              simp only [Option.map_eq_some'] at hpa2
              obtain ⟨po2, hpp, heq⟩ := hpa2
              simp only [Prod.mk.injEq] at heq
              have hpo2 : po2 = some po := heq.2
              subst hpo2
              obtain ⟨hdig, hle⟩ := (parsePort_eq_some_some portCs po).mp hpp
              refine ⟨hst, portCs, po, ?_, hne, ?_, hdig, hpo, hle⟩
              · have hrest := breakAt_append ':' (c :: rest)
                rw [hbk] at hrest
                simpa using hrest.symm
              · refine Or.inr ⟨?_, ?_, ?_⟩
                · have h2 := breakAt_fst_not_mem ':' (c :: rest)
                  rw [hbk] at h2
                  simpa using h2
                · intro hmem
                  have h2 : ∀ x ∈ hst, ¬ x = '[' ∧ ¬ x = ']' := by
                    simpa using hbrk
                  exact (h2 _ hmem).1 rfl
                · intro hmem
                  have h2 : ∀ x ∈ hst, ¬ x = '[' ∧ ¬ x = ']' := by
                    simpa using hbrk
                  exact (h2 _ hmem).2 rfl
            · exact absurd hpa2 (by simp)
  · rintro ⟨host, portCs, v, hd, hne, hkind, hdig, hv0, hv65⟩
    rcases hkind with ⟨inner, segs, hh, hip⟩ | ⟨hc1, hc2, hc3⟩
    · subst hh
      subst hd
      have hnrb : ']' ∉ inner := ipv6ParseL_no_rbracket inner segs hip
      have hshape : ('[' :: inner ++ [']']) ++ ':' :: portCs =
          '[' :: (inner ++ ']' :: ':' :: portCs) := by simp
      rw [hshape]
      have hpp : parsePort portCs = some (some v) :=
        (parsePort_eq_some_some portCs v).mpr ⟨hdig, hv65⟩
      refine ⟨.v6 segs, v, ?_, hv0⟩
      show parseBracketHost (inner ++ ']' :: ':' :: portCs) =
        some (.v6 segs, some v)
      unfold parseBracketHost
      rw [breakAt_complete ']' inner (':' :: portCs) hnrb]
      simp only [hip, hpp, Option.map_some']
    · obtain ⟨h0, hrest2, hh0⟩ := List.exists_cons_of_ne_nil hne
      have hh0nb : ¬ h0 = '[' := by
        intro h2
        exact hc2 (by rw [hh0, h2]; simp)
      have hpp : parsePort portCs = some (some v) :=
        (parsePort_eq_some_some portCs v).mpr ⟨hdig, hv65⟩
      have hshape : host ++ ':' :: portCs =
          h0 :: (hrest2 ++ ':' :: portCs) := by
        rw [hh0]; simp
      subst hd
      rw [hshape]
      refine ⟨.name ⟨host⟩, v, ?_, hv0⟩
      have hdisp : parseAuthority (h0 :: (hrest2 ++ ':' :: portCs)) =
          parsePlainHost (h0 :: (hrest2 ++ ':' :: portCs)) := by
        simp [parseAuthority, hh0nb]
      rw [hdisp]
      have hback : h0 :: (hrest2 ++ ':' :: portCs) =
          host ++ ':' :: portCs := by
        rw [hh0]; simp
      rw [hback]
      unfold parsePlainHost
      rw [breakAt_complete ':' host portCs hc1]
      simp only
      have hnoany : (host.any fun c => decide (c = '[' ∨ c = ']')) = false := by
        apply List.any_eq_false.mpr
        intro x hx
        have hx1 : ¬ x = '[' := fun h2 => hc2 (h2 ▸ hx)
        have hx2 : ¬ x = ']' := fun h3 => hc3 (h3 ▸ hx)
        simp [hx1, hx2]
      rw [if_neg (by simpa using hne)]
      rw [if_neg (by rw [hnoany]; simp)]
      simp only [hpp, Option.map_some']

/-- C4: the endpoint check accepts a string iff it is of the spec's
`host:port` form — bracketed literal IPv6, or a colon- and bracket-free
hostname or IPv4 text, followed by a colon and a decimal port numeral whose
value lies in (0, 65535]; in particular the empty string, a host without a
port, and port 0 are rejected. -/
theorem is_valid_wireguard_endpoint_iff (p : Peer) :
    p.is_valid_wireguard_endpoint = true ↔
      SpecHostPort p.wireguard_endpoint := by
  unfold Peer.is_valid_wireguard_endpoint
  have hwg : urlParseWg ("wg://" ++ p.wireguard_endpoint) =
      parseAuthority p.wireguard_endpoint.data := rfl
  rw [hwg]
  constructor
  · intro h
    cases hpa : parseAuthority p.wireguard_endpoint.data with
    | none => rw [hpa] at h; exact absurd h (by simp)
    | some hp =>
      obtain ⟨host, po⟩ := hp
      cases po with
      | none => rw [hpa] at h; exact absurd h (by simp)
      | some port =>
        rw [hpa] at h
        simp only [decide_eq_true_eq] at h
        exact (parseAuthority_pos_port_iff _).mp ⟨host, port, hpa, h⟩
  · intro hs
    obtain ⟨host2, po2, hpa, hpo⟩ := (parseAuthority_pos_port_iff _).mpr hs
    rw [hpa]
    simp [hpo]
end AutoPeer
